import Mathlib

/-!
Shallow embedding of the device-list reconciliation, filtering and status
logic of `src/src/devices/devices-list.ts` (first document variant, the one
the claims cite) and, where noted, of the variant in `src/unnamed/part_000`.

Modelling conventions:
* The device record shapes come from the external `../api/devices` module,
  which is not part of this repository; they are modelled from the spec's
  data-model section (ConfiguredDevice / ImportableDevice fields).
* JavaScript `x.toLocaleLowerCase()` is modelled by mapping `Char.toLower`
  over the string's characters, and `a.localeCompare(b) <= 0` by the
  lexicographic order on the resulting `List Char`; JS
  `Array.prototype.sort(cmp)` (a stable sort producing a list sorted by the
  comparator) is modelled by `List.insertionSort` over the comparator's
  induced relation.
* JS truthiness on optional string fields (`item.f && ...`) is modelled by
  an `Option String` being `some s` with `s` non-empty; a `Record` lookup
  whose miss is falsy is modelled by `List.lookup` with default `false`.
-/

namespace DevicesList

/-- ConfiguredDevice, modelled from the spec's data model (the TypeScript
declaration lives in the external `../api/devices` module): `name`,
`configuration`, optional `friendly_name`, optional `ip`, `update_available`,
`loaded_integrations` (absent until metadata is computed). -/
structure ConfiguredDevice where
  name : String
  configuration : String
  friendly_name : Option String
  ip : Option String
  update_available : Bool
  loaded_integrations : Option (List String)
deriving DecidableEq

/-- ImportableDevice, modelled from the spec's data model: `name`,
`package_import_url` (the marker field), optional `project_name`, `ignored`,
optional `comment`. -/
structure ImportableDevice where
  name : String
  package_import_url : String
  project_name : Option String
  ignored : Bool
  comment : Option String
deriving DecidableEq

/-- The union `ImportableDevice | ConfiguredDevice` flowing through the list;
the code discriminates with `"package_import_url" in item`. -/
inductive Device where
  | configured (d : ConfiguredDevice)
  | importable (d : ImportableDevice)
deriving DecidableEq

/-- `item.name`, defined on both variants. -/
def deviceName : Device → String
  | .configured d => d.name
  | .importable d => d.name

/-- The `_isImportable` marker test (`"package_import_url" in item`). -/
def isImportable : Device → Bool
  | .configured _ => false
  | .importable _ => true

/-- A device snapshot as delivered by `subscribeDevices`; either field may be
absent. -/
structure DevicesResult where
  configured : Option (List ConfiguredDevice)
  importable : Option (List ImportableDevice)
deriving DecidableEq

/-- `s.toLocaleLowerCase()` as character data: every character lowered. -/
def lowerChars (s : String) : List Char :=
  s.data.map Char.toLower

/-- `a.friendly_name || a.name` (JS `||`: an absent or empty string falls
back to `name`). -/
def displayName (d : ConfiguredDevice) : String :=
  match d.friendly_name with
  | some s => if s = "" then d.name else s
  | none => d.name

/-- The configured-list comparator of `newList.sort` (lines 578-584):
`(a.friendly_name || a.name).toLocaleLowerCase().localeCompare(...) ≤ 0`. -/
def confLe (a b : ConfiguredDevice) : Prop :=
  lowerChars (displayName a) ≤ lowerChars (displayName b)

instance : DecidableRel confLe := fun a b =>
  inferInstanceAs (Decidable (lowerChars (displayName a) ≤ lowerChars (displayName b)))

instance : IsTotal ConfiguredDevice confLe :=
  ⟨fun a b => le_total (lowerChars (displayName a)) (lowerChars (displayName b))⟩

instance : IsTrans ConfiguredDevice confLe :=
  ⟨fun _ _ _ hab hbc => le_trans hab hbc⟩

/-- The importable-list comparator (lines 588-598): primary key `ignored`
(`false` first), secondary key case-insensitive `name`. -/
def impLe (a b : ImportableDevice) : Prop :=
  if a.ignored = b.ignored then lowerChars a.name ≤ lowerChars b.name
  else a.ignored = false

instance : DecidableRel impLe := fun a b =>
  inferInstanceAs (Decidable (if a.ignored = b.ignored then
    lowerChars a.name ≤ lowerChars b.name else a.ignored = false))

instance : IsTotal ImportableDevice impLe := by
  constructor
  intro a b
  by_cases h : a.ignored = b.ignored
  · rw [impLe, impLe, if_pos h, if_pos h.symm]
    exact le_total _ _
  · rw [impLe, impLe, if_neg h, if_neg (fun hba => h hba.symm)]
    cases ha : a.ignored <;> cases hb : b.ignored <;> simp_all

instance : IsTrans ImportableDevice impLe := by
  constructor
  intro a b c hab hbc
  rw [impLe] at hab hbc ⊢
  by_cases hab' : a.ignored = b.ignored <;> by_cases hbc' : b.ignored = c.ignored
  · rw [if_pos hab'] at hab
    rw [if_pos hbc'] at hbc
    rw [if_pos (hab'.trans hbc')]
    exact le_trans hab hbc
  · rw [if_neg (fun h => hbc' (hab' ▸ h))]
    rw [if_neg hbc'] at hbc
    exact hab' ▸ hbc
  · rw [if_neg hab'] at hab
    rw [if_neg (fun h => hab' (hbc' ▸ h))]
    exact hab
  · rw [if_neg hab'] at hab
    rw [if_neg hbc'] at hbc
    cases ha : a.ignored <;> cases hc : c.ignored <;> simp_all

/-- Whether a configured name is counted as newly added (lines 567-570):
the previous `this._devices` list must exist and contain no device of that
name (the filter-by-name result has length 0). -/
def isNewName (prev : Option (List Device)) (n : String) : Bool :=
  match prev with
  | some old => (old.filter (fun o => deviceName o == n)).length == 0
  | none => false

/-- The `devices.configured.forEach` accumulation (lines 566-575): build the
`newDevices` set (insertion order, duplicates ignored) and overwrite
`newName` on every newly added device. -/
def collectNew (prev : Option (List Device)) :
    List ConfiguredDevice → List String × Option String → List String × Option String
  | [], acc => acc
  | d :: ds, acc =>
      collectNew prev ds
        (if isNewName prev d.name then
          ((if acc.1.contains d.name then acc.1 else acc.1 ++ [d.name]), some d.name)
        else acc)

/-- The result of one reconciliation pass: the list assigned to
`this._devices`, the set assigned to `this._new`, and the `newName` scroll
target. -/
structure ReconcileResult where
  viewList : List Device
  newSet : List String
  scrollTarget : Option String
deriving DecidableEq

/-- The reconciliation body of the `subscribeDevices` callback
(lines 560-609): collect new names over `devices.configured`, sort the
configured entries, and prepend the sorted importable entries when present. -/
def reconcile (prev : Option (List Device)) (snap : DevicesResult) : ReconcileResult :=
  let conf := snap.configured.getD []
  let acc := collectNew prev conf ([], none)
  let sortedConf := (List.insertionSort confLe conf).map Device.configured
  let viewList :=
    match snap.importable with
    | some imp => (List.insertionSort impLe imp).map Device.importable ++ sortedConf
    | none => sortedConf
  ⟨viewList, acc.1, acc.2⟩

/-- The component state the callback mutates: `this._devices` (absent until
the first snapshot) and `this._new`. -/
structure ListState where
  devices : Option (List Device)
  newSet : List String
deriving DecidableEq

/-- The metadata-refresh pass (lines 613-617): every configured device whose
`loaded_integrations` is an empty sequence is reported by its
`configuration`. -/
def metadataCandidates (conf : List ConfiguredDevice) : List String :=
  (conf.filter (fun d => d.loaded_integrations == some [])).map (fun d => d.configuration)

/-- Observable outcome of one delivery of the `subscribeDevices` callback:
either it completes (`ok`) or it throws after having already assigned the
new state (`threw`). -/
inductive CallbackOutcome where
  | ok (st : ListState) (scroll : Option String) (metadata : List String)
  | threw (st : ListState) (scroll : Option String) (msg : String)
deriving DecidableEq

/-- One delivery of the `subscribeDevices` callback (lines 558-618). A null
snapshot returns early. Otherwise the reconciliation result is assigned to
`this._devices` / `this._new` (lines 603-604) before the metadata loop: that
loop iterates `devices.configured` unconditionally (line 613), so a snapshot
without a `configured` field throws a TypeError after the state was already
replaced. -/
def callbackStep (st : ListState) (snap : Option DevicesResult) : CallbackOutcome :=
  match snap with
  | none => .ok st none []
  | some s =>
      let r := reconcile st.devices s
      let st' : ListState := ⟨some r.viewList, r.newSet⟩
      match s.configured with
      | some conf => .ok st' r.scrollTarget (metadataCandidates conf)
      | none => .threw st' r.scrollTarget "TypeError: devices.configured is not iterable"

/-- `this._onlineStatus[key]` used as a boolean: a missing entry is falsy. -/
def onlineLookup (m : List (String × Bool)) (k : String) : Bool :=
  (m.lookup k).getD false

/-- `_getDeviceStatus` as written in `src/src/devices/devices-list.ts`
(lines 264-271): importable devices are "discovered"; configured devices are
"online" or "offline" from the online-status map. -/
def getDeviceStatus (m : List (String × Bool)) : Device → String
  | .importable _ => "discovered"
  | .configured c => if onlineLookup m c.configuration then "online" else "offline"

/-- `_getDeviceStatus` as written in `src/unnamed/part_000` (lines 392-404):
like `getDeviceStatus` but with an `update_available` branch first. -/
def getDeviceStatusPart0 (m : List (String × Bool)) : Device → String
  | .importable _ => "discovered"
  | .configured c =>
      if c.update_available then "update-available"
      else if onlineLookup m c.configuration then "online" else "offline"

/-- Modelled from the spec: the status rule as the spec and claim C7 state
it — `update_available → "update-available"`, else map entry `→ "online"`,
else `"offline"`; importable always `"discovered"`. -/
def specDeviceStatus (m : List (String × Bool)) : Device → String
  | .importable _ => "discovered"
  | .configured c =>
      if c.update_available then "update-available"
      else if onlineLookup m c.configuration then "online" else "offline"

/-- Substring occurrence on character data, the JS
`hay.indexOf(needle) >= 0`. -/
def strContains (hay needle : List Char) : Bool :=
  decide (needle <:+: hay)

/-- One optional-field clause of `_filter`
(`"f" in item && item.f && item.f.toLowerCase().indexOf(sv) >= 0`): the field
must exist, be truthy (non-empty), and contain the lowercased search value. -/
def optFieldMatches (f : Option String) (sv : List Char) : Bool :=
  match f with
  | some s => !(s == "") && strContains (lowerChars s) sv
  | none => false

/-- `item.friendly_name` where it exists (configured devices only, per the
spec's data model). -/
def friendlyNameOf : Device → Option String
  | .configured c => c.friendly_name
  | .importable _ => none

/-- `item.comment` where it exists (importable devices only, per the spec's
data model). -/
def commentOf : Device → Option String
  | .configured _ => none
  | .importable i => i.comment

/-- `item.project_name` where it exists (importable devices only, per the
spec's data model). -/
def projectNameOf : Device → Option String
  | .configured _ => none
  | .importable i => i.project_name

/-- The search body of `_filter` (lines 368-394): the early-return chain over
`name`, `friendly_name`, `comment`, `project_name`. -/
def searchMatches (searchValue : String) (item : Device) : Bool :=
  let sv := lowerChars searchValue
  if strContains (lowerChars (deviceName item)) sv then true
  else if optFieldMatches (friendlyNameOf item) sv then true
  else if optFieldMatches (commentOf item) sv then true
  else if optFieldMatches (projectNameOf item) sv then true
  else false

/-- `_filter` (lines 363-397): drop importable devices unless the
"show discovered" flag is set; with a non-empty search value, keep the device
only if one of the searchable fields contains it case-insensitively. -/
def deviceFilter (showDiscoveredDevices : Bool) (searchValue : String) (item : Device) : Bool :=
  if !showDiscoveredDevices && isImportable item then false
  else if searchValue != "" then searchMatches searchValue item
  else true

/-- The projection of a view list onto its configured records. -/
def getConfigured : Device → Option ConfiguredDevice
  | .configured c => some c
  | .importable _ => none

/-- The projection of a view list onto its importable records. -/
def getImportable : Device → Option ImportableDevice
  | .importable i => some i
  | .configured _ => none

/-- The names counted as newly added, in snapshot iteration order: a
specification-level view of `collectNew`. -/
def newNamesSeq (prev : Option (List Device)) (conf : List ConfiguredDevice) : List String :=
  (conf.filter (fun d => isNewName prev d.name)).map (fun d => d.name)

/-- The configured subset of a view list. -/
def configuredSubset (l : List Device) : List Device :=
  l.filter (fun d => !isImportable d)

/-- From claim C1's words: the names of configured snapshot devices with no
same-named device in the previous view list's CONFIGURED SUBSET (the code
instead tests the whole previous list). -/
def claimNewNames (prev : List Device) (conf : List ConfiguredDevice) : List String :=
  (conf.filter (fun d =>
    ((configuredSubset prev).filter (fun o => deviceName o == d.name)).length == 0)).map
    (fun d => d.name)

/-- From claim C8's words: the searchable fields that exist and are set on a
device variant — `name` always, and whichever of `friendly_name`, `comment`,
`project_name` exist and are non-empty. -/
def searchFields (item : Device) : List String :=
  deviceName item ::
    (([friendlyNameOf item, commentOf item, projectNameOf item].filterMap id).filter
      (fun s => !(s == "")))

/-- From claim C8's words: keep a device iff it is configured or the
"show discovered" flag is set, and the search string is empty or occurs
case-insensitively in one of the fields that exist and are set on it. -/
def specKeep (showDiscoveredDevices : Bool) (search : String) (item : Device) : Prop :=
  (isImportable item = false ∨ showDiscoveredDevices = true) ∧
    (search = "" ∨
      ∃ f ∈ searchFields item, strContains (lowerChars f) (lowerChars search) = true)

/-- From claim C5's words: relative order required of two importable entries
placed in that order — an ignored entry never precedes a non-ignored one,
and inside one group the case-insensitive names ascend. -/
def impClaimRel (a b : ImportableDevice) : Prop :=
  (a.ignored = true → b.ignored = true) ∧
    (a.ignored = b.ignored → lowerChars a.name ≤ lowerChars b.name)

/-- A configured device named "a". -/
def confA : ConfiguredDevice := ⟨"a", "a.yaml", none, none, false, some ["wifi"]⟩

/-- A configured device named "b". -/
def confB : ConfiguredDevice := ⟨"b", "b.yaml", none, none, false, some ["wifi"]⟩

/-- A configured device with an available update. -/
def confUpd : ConfiguredDevice := ⟨"u", "u.yaml", none, none, true, some ["wifi"]⟩

/-- An importable device named "b". -/
def impB : ImportableDevice := ⟨"b", "github://x/b.yaml", some "proj-b", false, none⟩

/-- A non-ignored importable device named "Z". -/
def impZ : ImportableDevice := ⟨"Z", "github://x/z.yaml", none, false, none⟩

/-- An ignored importable device named "A". -/
def impIgnA : ImportableDevice := ⟨"A", "github://x/a.yaml", none, true, none⟩

theorem getLast?_or_cons {α : Type _} (a : α) (l : List α) :
    (a :: l).getLast? = l.getLast?.or (some a) := by
  induction l generalizing a with
  | nil => rfl
  | cons b t ih => rw [List.getLast?_cons_cons, ih b, Option.or_assoc, Option.or_some]

theorem mem_collectNew_fst (prev : Option (List Device)) :
    ∀ (conf : List ConfiguredDevice) (acc : List String × Option String) (n : String),
      n ∈ (collectNew prev conf acc).1 ↔ n ∈ acc.1 ∨ n ∈ newNamesSeq prev conf := by
  intro conf
  induction conf with
  | nil => intro acc n; simp [collectNew, newNamesSeq]
  | cons d ds ih =>
      intro acc n
      rw [collectNew]
      by_cases h : isNewName prev d.name = true
      · rw [if_pos h, ih]
        have hseq : newNamesSeq prev (d :: ds) = d.name :: newNamesSeq prev ds := by
          simp [newNamesSeq, List.filter_cons, h]
        rw [hseq]
        by_cases hc : acc.1.contains d.name = true
        · rw [if_pos hc]
          have hd : d.name ∈ acc.1 := List.elem_iff.mp hc
          simp only [List.mem_cons]
          constructor
          · rintro (h1 | h2)
            · exact Or.inl h1
            · exact Or.inr (Or.inr h2)
          · rintro (h1 | heq | h2)
            · exact Or.inl h1
            · exact Or.inl (heq ▸ hd)
            · exact Or.inr h2
        · rw [if_neg hc]
          simp only [List.mem_append, List.mem_cons, List.not_mem_nil, or_false]
          tauto
      · rw [if_neg h, ih]
        have hseq : newNamesSeq prev (d :: ds) = newNamesSeq prev ds := by
          simp [newNamesSeq, List.filter_cons, h]
        rw [hseq]

theorem collectNew_snd (prev : Option (List Device)) :
    ∀ (conf : List ConfiguredDevice) (acc : List String × Option String),
      (collectNew prev conf acc).2 = (newNamesSeq prev conf).getLast?.or acc.2 := by
  intro conf
  induction conf with
  | nil => intro acc; simp [collectNew, newNamesSeq]
  | cons d ds ih =>
      intro acc
      rw [collectNew]
      by_cases h : isNewName prev d.name = true
      · rw [if_pos h, ih]
        have hseq : newNamesSeq prev (d :: ds) = d.name :: newNamesSeq prev ds := by
          simp [newNamesSeq, List.filter_cons, h]
        rw [hseq, getLast?_or_cons, Option.or_assoc]
        simp
      · rw [if_neg h, ih]
        have hseq : newNamesSeq prev (d :: ds) = newNamesSeq prev ds := by
          simp [newNamesSeq, List.filter_cons, h]
        rw [hseq]

theorem isNewName_some_iff (l : List Device) (n : String) :
    isNewName (some l) n = true ↔ ∀ o ∈ l, deviceName o ≠ n := by
  simp [isNewName, List.length_eq_zero, List.filter_eq_nil_iff]

theorem isNewName_eq_false_of_mem (l : List Device) (n : String)
    (h : ∃ o ∈ l, deviceName o = n) : isNewName (some l) n = false := by
  rw [Bool.eq_false_iff]
  intro hnew
  obtain ⟨o, ho, hname⟩ := h
  exact (isNewName_some_iff l n).mp hnew o ho hname

theorem collectNew_of_none (conf : List ConfiguredDevice) (acc : List String × Option String) :
    collectNew none conf acc = acc := by
  induction conf generalizing acc with
  | nil => rfl
  | cons d ds ih => rw [collectNew, isNewName, if_neg (by simp)]; exact ih acc

theorem collectNew_of_all_old (prev : Option (List Device)) (conf : List ConfiguredDevice)
    (acc : List String × Option String) (h : ∀ d ∈ conf, isNewName prev d.name = false) :
    collectNew prev conf acc = acc := by
  induction conf generalizing acc with
  | nil => rfl
  | cons d ds ih =>
      rw [collectNew, if_neg (by rw [h d (List.mem_cons_self d ds)]; simp)]
      exact ih acc (fun x hx => h x (List.mem_cons_of_mem d hx))


theorem filterMap_getConfigured_importables (xs : List ImportableDevice) :
    (xs.map Device.importable).filterMap getConfigured = [] := by
  induction xs with
  | nil => rfl
  | cons x t ih => simp [getConfigured, ih]

theorem filterMap_getConfigured_configureds (ys : List ConfiguredDevice) :
    (ys.map Device.configured).filterMap getConfigured = ys := by
  induction ys with
  | nil => rfl
  | cons y t ih => simp [getConfigured, ih]

theorem filterMap_getImportable_importables (xs : List ImportableDevice) :
    (xs.map Device.importable).filterMap getImportable = xs := by
  induction xs with
  | nil => rfl
  | cons x t ih => simp [getImportable, ih]

theorem filterMap_getImportable_configureds (ys : List ConfiguredDevice) :
    (ys.map Device.configured).filterMap getImportable = [] := by
  induction ys with
  | nil => rfl
  | cons y t ih => simp [getImportable, ih]

theorem impLe_implies_claim {a b : ImportableDevice} (h : impLe a b) : impClaimRel a b := by
  rw [impLe] at h
  by_cases hig : a.ignored = b.ignored
  · rw [if_pos hig] at h
    exact ⟨fun ha => hig ▸ ha, fun _ => h⟩
  · rw [if_neg hig] at h
    exact ⟨fun ha => absurd (h ▸ ha) (by simp), fun heq => absurd heq hig⟩

theorem mem_searchFields (item : Device) (f : String) :
    f ∈ searchFields item ↔
      f = deviceName item ∨ (friendlyNameOf item = some f ∧ f ≠ "") ∨
        (commentOf item = some f ∧ f ≠ "") ∨ (projectNameOf item = some f ∧ f ≠ "") := by
  simp only [searchFields, List.mem_cons, List.mem_filter, List.mem_filterMap, id,
    List.mem_singleton, List.not_mem_nil, or_false, exists_eq_right, Bool.not_eq_true',
    beq_eq_false_iff_ne, ne_eq]
  tauto

theorem optFieldMatches_iff (f : Option String) (sv : List Char) :
    optFieldMatches f sv = true ↔
      ∃ s, f = some s ∧ s ≠ "" ∧ strContains (lowerChars s) sv = true := by
  cases f with
  | none => simp [optFieldMatches]
  | some s => simp [optFieldMatches, Bool.and_eq_true]

theorem searchMatches_eq_or (search : String) (item : Device) :
    searchMatches search item =
      (strContains (lowerChars (deviceName item)) (lowerChars search) ||
        optFieldMatches (friendlyNameOf item) (lowerChars search) ||
        optFieldMatches (commentOf item) (lowerChars search) ||
        optFieldMatches (projectNameOf item) (lowerChars search)) := by
  simp only [searchMatches]
  split_ifs with h1 h2 h3 h4 <;> simp_all

theorem searchMatches_iff (search : String) (item : Device) :
    searchMatches search item = true ↔
      ∃ f ∈ searchFields item, strContains (lowerChars f) (lowerChars search) = true := by
  rw [searchMatches_eq_or]
  simp only [Bool.or_eq_true, optFieldMatches_iff]
  constructor
  · rintro (((hn | ⟨s, hs, hne, hc⟩) | ⟨s, hs, hne, hc⟩) | ⟨s, hs, hne, hc⟩)
    · exact ⟨deviceName item, (mem_searchFields item _).mpr (Or.inl rfl), hn⟩
    · exact ⟨s, (mem_searchFields item s).mpr (Or.inr (Or.inl ⟨hs, hne⟩)), hc⟩
    · exact ⟨s, (mem_searchFields item s).mpr (Or.inr (Or.inr (Or.inl ⟨hs, hne⟩))), hc⟩
    · exact ⟨s, (mem_searchFields item s).mpr (Or.inr (Or.inr (Or.inr ⟨hs, hne⟩))), hc⟩
  · rintro ⟨f, hf, hc⟩
    rcases (mem_searchFields item f).mp hf with rfl | ⟨hf', hne⟩ | ⟨hf', hne⟩ | ⟨hf', hne⟩
    · exact Or.inl (Or.inl (Or.inl hc))
    · exact Or.inl (Or.inl (Or.inr ⟨f, hf', hne, hc⟩))
    · exact Or.inl (Or.inr ⟨f, hf', hne, hc⟩)
    · exact Or.inr ⟨f, hf', hne, hc⟩

/-- Claim C1, as stated, is false: with previous view list `[importable "b"]`
and snapshot configured `[confB]`, the set described by the claim (membership
tested only against the previous list's configured subset) is `["b"]`, but the
code's "new" set is empty, because the code tests the name against the whole
previous view list. -/
theorem newSet_configured_subset_counterexample :
    (reconcile (some [Device.importable impB]) ⟨some [confB], none⟩).newSet = [] ∧
      claimNewNames [Device.importable impB] [confB] = ["b"] := by decide

/-- Claim C1 (amended): after a reconciliation step with `configured` present
and an existing previous view list, a name is in the "new" set iff some
configured device of the snapshot bears it and no device of that name occurs
anywhere in the previous view list (configured or importable alike). -/
theorem newSet_absent_from_whole_previous_list (prev : List Device)
    (conf : List ConfiguredDevice) (imp : Option (List ImportableDevice)) (n : String) :
    n ∈ (reconcile (some prev) ⟨some conf, imp⟩).newSet ↔
      ∃ d ∈ conf, d.name = n ∧ ∀ old ∈ prev, deviceName old ≠ n := by
  have hr : (reconcile (some prev) ⟨some conf, imp⟩).newSet =
      (collectNew (some prev) conf ([], none)).1 := rfl
  rw [hr, mem_collectNew_fst]
  simp only [List.not_mem_nil, false_or, newNamesSeq, List.mem_map, List.mem_filter]
  constructor
  · rintro ⟨d, ⟨hd, hnew⟩, rfl⟩
    exact ⟨d, hd, rfl, (isNewName_some_iff prev d.name).mp hnew⟩
  · rintro ⟨d, hd, rfl, hno⟩
    exact ⟨d, ⟨hd, (isNewName_some_iff prev d.name).mpr hno⟩, rfl⟩

/-- Claim C2 is right about the intended behaviour and the code violates it:
delivering a non-null snapshot whose `configured` field is absent replaces
`this._devices` (wiping the previously shown configured device) and `this._new`
and then throws a TypeError from the unconditional
`for (const device of devices.configured)` loop, instead of leaving the state
unchanged and raising no error. -/
theorem configured_absent_replaces_state_and_throws :
    callbackStep ⟨some [Device.configured confA], []⟩ (some ⟨none, none⟩) =
        .threw ⟨some [], []⟩ none "TypeError: devices.configured is not iterable" ∧
      (⟨some [], []⟩ : ListState) ≠ ⟨some [Device.configured confA], []⟩ := by decide

/-- Claim C3: when both snapshot fields are present, the output view list is
the sorted importable sequence followed by the sorted configured sequence, so
every importable entry precedes every configured entry. -/
theorem viewList_importables_before_configureds (prev : Option (List Device))
    (conf : List ConfiguredDevice) (imp : List ImportableDevice) :
    ∃ xs ys,
      (reconcile prev ⟨some conf, some imp⟩).viewList =
          xs.map Device.importable ++ ys.map Device.configured ∧
        xs.Perm imp ∧ ys.Perm conf ∧ List.Sorted impLe xs ∧ List.Sorted confLe ys :=
  ⟨List.insertionSort impLe imp, List.insertionSort confLe conf, rfl,
    List.perm_insertionSort impLe imp, List.perm_insertionSort confLe conf,
    List.sorted_insertionSort impLe imp, List.sorted_insertionSort confLe conf⟩

/-- Claim C4: for every non-empty `configured` sequence, the configured subset
of the output view list is sorted ascending by the case-insensitive
`friendly_name`-falling-back-to-`name` key. -/
theorem viewList_configured_sorted (prev : Option (List Device))
    (conf : List ConfiguredDevice) (imp : Option (List ImportableDevice))
    (hconf : conf ≠ []) :
    List.Sorted confLe
      ((reconcile prev ⟨some conf, imp⟩).viewList.filterMap getConfigured) := by
  cases imp with
  | none =>
      have hv : (reconcile prev ⟨some conf, none⟩).viewList =
          (List.insertionSort confLe conf).map Device.configured := rfl
      rw [hv, filterMap_getConfigured_configureds]
      exact List.sorted_insertionSort confLe conf
  | some l =>
      have hv : (reconcile prev ⟨some conf, some l⟩).viewList =
          (List.insertionSort impLe l).map Device.importable ++
            (List.insertionSort confLe conf).map Device.configured := rfl
      rw [hv, List.filterMap_append, filterMap_getConfigured_importables,
        filterMap_getConfigured_configureds, List.nil_append]
      exact List.sorted_insertionSort confLe conf

/-- Witness for claim C4 at a concrete snapshot. -/
theorem viewList_configured_sorted_witness :
    List.Sorted confLe
      ((reconcile none ⟨some [confB, confA], none⟩).viewList.filterMap getConfigured) :=
  viewList_configured_sorted none [confB, confA] none (by decide)

/-- Claim C5: in the output, among importable entries, every ignored entry
comes strictly after every non-ignored one, and entries of equal `ignored`
status ascend by case-insensitive name. -/
theorem viewList_importable_group_order (prev : Option (List Device))
    (confOpt : Option (List ConfiguredDevice)) (imp : List ImportableDevice) :
    List.Pairwise impClaimRel
      ((reconcile prev ⟨confOpt, some imp⟩).viewList.filterMap getImportable) := by
  have hv : (reconcile prev ⟨confOpt, some imp⟩).viewList =
      (List.insertionSort impLe imp).map Device.importable ++
        (List.insertionSort confLe (confOpt.getD [])).map Device.configured := rfl
  rw [hv, List.filterMap_append, filterMap_getImportable_importables,
    filterMap_getImportable_configureds, List.append_nil]
  exact List.Pairwise.imp (fun h => impLe_implies_claim h)
    (List.sorted_insertionSort impLe imp)

/-- Claim C6, as stated, is false: when configured devices "a" and "b" are
both newly added (in that iteration order), the scroll target is `some "b"`,
the LAST new device, not the first one `"a"`. -/
theorem scrollTarget_first_counterexample :
    (reconcile (some []) ⟨some [confA, confB], none⟩).scrollTarget = some "b" ∧
      (newNamesSeq (some []) [confA, confB]).head? = some "a" ∧
      (reconcile (some []) ⟨some [confA, confB], none⟩).scrollTarget ≠
        (newNamesSeq (some []) [confA, confB]).head? := by decide

/-- Claim C6 (amended): the scroll target is the name of the LAST newly-added
device in the snapshot's iteration order, and it is absent exactly when no
device is new. -/
theorem scrollTarget_last_newly_added (prev : List Device)
    (conf : List ConfiguredDevice) (imp : Option (List ImportableDevice)) :
    (reconcile (some prev) ⟨some conf, imp⟩).scrollTarget =
        (newNamesSeq (some prev) conf).getLast? ∧
      ((reconcile (some prev) ⟨some conf, imp⟩).scrollTarget = none ↔
        (reconcile (some prev) ⟨some conf, imp⟩).newSet = []) := by
  have hs : (reconcile (some prev) ⟨some conf, imp⟩).scrollTarget =
      (collectNew (some prev) conf ([], none)).2 := rfl
  have hn : (reconcile (some prev) ⟨some conf, imp⟩).newSet =
      (collectNew (some prev) conf ([], none)).1 := rfl
  have h2 := collectNew_snd (some prev) conf ([], none)
  have h2' : (collectNew (some prev) conf ([], none)).2 =
      (newNamesSeq (some prev) conf).getLast? := by
    rw [h2, Option.or_none]
  rw [hs, hn, h2']
  refine ⟨rfl, ?_⟩
  rw [List.getLast?_eq_none_iff]
  constructor
  · intro hseq
    rw [List.eq_nil_iff_forall_not_mem]
    intro x hx
    rw [mem_collectNew_fst] at hx
    rcases hx with h1 | h1
    · simp at h1
    · rw [hseq] at h1
      simp at h1
  · intro hempty
    rw [List.eq_nil_iff_forall_not_mem]
    intro x hx
    have hmem : x ∈ (collectNew (some prev) conf ([], none)).1 :=
      (mem_collectNew_fst (some prev) conf ([], none) x).mpr (Or.inr hx)
    rw [hempty] at hmem
    simp at hmem

/-- Claim C7, as stated, is false for the `_getDeviceStatus` of
`src/src/devices/devices-list.ts`: a configured device with
`update_available = true` whose configuration is online is reported "online",
not "update-available" (that file has no `update_available` branch). -/
theorem deviceStatus_update_available_counterexample :
    getDeviceStatus [("u.yaml", true)] (Device.configured confUpd) = "online" ∧
      confUpd.update_available = true ∧
      getDeviceStatusPart0 [("u.yaml", true)] (Device.configured confUpd) =
        "update-available" ∧
      ("online" : String) ≠ "update-available" := by decide

/-- Claim C7 (amended): the `src/unnamed/part_000` variant satisfies the
stated rule exactly; the `devices-list.ts` variant reports importables as
"discovered" and agrees with the stated rule precisely on configured devices
without an available update (it omits the `update_available` branch). -/
theorem deviceStatus_variants (m : List (String × Bool)) (d : Device) :
    getDeviceStatusPart0 m d = specDeviceStatus m d ∧
      (isImportable d = true → getDeviceStatus m d = "discovered") ∧
      (∀ c, d = Device.configured c → c.update_available = false →
        getDeviceStatus m d = specDeviceStatus m d) := by
  refine ⟨by cases d <;> rfl, ?_, ?_⟩
  · intro h
    cases d with
    | configured c => simp [isImportable] at h
    | importable i => rfl
  · rintro c rfl h
    simp [getDeviceStatus, getDeviceStatusPart0, specDeviceStatus, h]

/-- Witness for claim C7's amended theorem at a concrete device and map. -/
theorem deviceStatus_variants_witness :
    getDeviceStatus [("a.yaml", true)] (Device.configured confA) =
      specDeviceStatus [("a.yaml", true)] (Device.configured confA) :=
  (deviceStatus_variants [("a.yaml", true)] (Device.configured confA)).2.2 confA rfl rfl

/-- Claim C8: `_filter` keeps a device iff it is configured or the
"show discovered" flag is set, and the search string is empty or occurs
case-insensitively in one of the fields that exist and are set on the
device. -/
theorem filter_keeps_iff (flag : Bool) (search : String) (item : Device) :
    deviceFilter flag search item = true ↔ specKeep flag search item := by
  unfold deviceFilter
  by_cases hgate : (!flag && isImportable item) = true
  · rw [if_pos hgate]
    simp only [Bool.and_eq_true, Bool.not_eq_true'] at hgate
    obtain ⟨hflag, himp⟩ := hgate
    simp [specKeep, himp, hflag]
  · rw [if_neg hgate]
    have hfirst : isImportable item = false ∨ flag = true := by
      cases hf : flag
      · cases hi : isImportable item
        · exact Or.inl rfl
        · exact absurd (by rw [hf, hi]; rfl) hgate
      · exact Or.inr rfl
    by_cases hs : search = ""
    · subst hs
      rw [if_neg (by simp)]
      exact iff_of_true rfl ⟨hfirst, Or.inl rfl⟩
    · rw [if_pos (by simp [hs] : (search != "") = true), searchMatches_iff]
      constructor
      · intro h
        exact ⟨hfirst, Or.inr h⟩
      · rintro ⟨_, h | h⟩
        · exact absurd h hs
        · exact h

/-- Claim C9: reconciling the same snapshot twice in a row, the second pass
taking the first pass's output view list as the previous view list, yields an
empty "new" set. -/
theorem reconcile_twice_no_new (prev : Option (List Device)) (snap : DevicesResult) :
    (reconcile (some (reconcile prev snap).viewList) snap).newSet = [] := by
  obtain ⟨confOpt, impOpt⟩ := snap
  cases confOpt with
  | none => rfl
  | some conf =>
      have hall : ∀ d ∈ conf,
          isNewName (some (reconcile prev ⟨some conf, impOpt⟩).viewList) d.name = false := by
        intro d hd
        apply isNewName_eq_false_of_mem
        refine ⟨Device.configured d, ?_, rfl⟩
        cases impOpt with
        | none =>
            have hv : (reconcile prev ⟨some conf, none⟩).viewList =
                (List.insertionSort confLe conf).map Device.configured := rfl
            rw [hv]
            exact List.mem_map.mpr ⟨d, (List.perm_insertionSort confLe conf).mem_iff.mpr hd, rfl⟩
        | some l =>
            have hv : (reconcile prev ⟨some conf, some l⟩).viewList =
                (List.insertionSort impLe l).map Device.importable ++
                  (List.insertionSort confLe conf).map Device.configured := rfl
            rw [hv]
            exact List.mem_append_right _
              (List.mem_map.mpr ⟨d, (List.perm_insertionSort confLe conf).mem_iff.mpr hd, rfl⟩)
      have hn : (reconcile (some (reconcile prev ⟨some conf, impOpt⟩).viewList)
          ⟨some conf, impOpt⟩).newSet =
          (collectNew (some (reconcile prev ⟨some conf, impOpt⟩).viewList) conf
            ([], none)).1 := rfl
      rw [hn, collectNew_of_all_old _ _ _ hall]

/-- Claim C10: on the very first reconciliation, when no previous view list
exists, the "new" set is empty and no scroll target is produced, for every
snapshot. -/
theorem first_reconcile_no_new (snap : DevicesResult) :
    (reconcile none snap).newSet = [] ∧ (reconcile none snap).scrollTarget = none := by
  obtain ⟨confOpt, impOpt⟩ := snap
  have h := collectNew_of_none (confOpt.getD []) ([], none)
  exact ⟨by rw [show (reconcile none ⟨confOpt, impOpt⟩).newSet =
        (collectNew none (confOpt.getD []) ([], none)).1 from rfl, h],
    by rw [show (reconcile none ⟨confOpt, impOpt⟩).scrollTarget =
        (collectNew none (confOpt.getD []) ([], none)).2 from rfl, h]⟩

end DevicesList
